import Mathlib

/-!
Verification development for the Divine Wrath game server
(src/index.js, src/shared/constants.js, src/shared/types.ts).

The per-room session engine is embedded shallowly: each socket command
handler becomes a pure function on the `Room` state returning the new
room together with the error message (if any) emitted to the caller.
Randomness (role shuffling, new-Adjudicator picks) and the external
blockchain path taken by claim verification are supplied as explicit
oracle parameters.  Numeric payloads (grid positions, cells, claim
values) are embedded as `Nat`.
-/

namespace DivineWrath

/-- Player roles ('god' / 'mortal' strings in the source). -/
inductive Role where
  | god
  | mortal
deriving DecidableEq

/-- The six game phases of the session state machine. -/
inductive Phase where
  | lobby
  | setup
  | claiming
  | deduction
  | round_transition
  | ended
deriving DecidableEq

/-- Claim types ('row' / 'column' / 'adjacent' strings in the source). -/
inductive ClaimType where
  | row
  | column
  | adjacent
deriving DecidableEq

/-- Round winner ('god' / 'mortals' strings in the source). -/
inductive Winner where
  | god
  | mortals
deriving DecidableEq

/-- Avatar config { color, eyebrows }. -/
structure AvatarConfig where
  color : String
  eyebrows : String
deriving DecidableEq

/-- A player record as created by create_room / join_room. -/
structure Player where
  id : String
  name : String
  role : Option Role
  position : Option Nat
  isHost : Bool
  isReady : Bool
  avatar : Option AvatarConfig
deriving DecidableEq

/-- One entry of a player's score breakdown. -/
structure ScoreEntry where
  round : Nat
  turn : Nat
  action : String
  points : Int
deriving DecidableEq

/-- Per-player score record. -/
structure PlayerScore where
  playerId : String
  playerName : String
  total : Int
  breakdown : List ScoreEntry
deriving DecidableEq

/-- God tracking for round transitions. -/
structure GodHistory where
  playerId : String
  consecutiveRounds : Nat
  hasPenalty : Bool
  missedAttacks : Nat
deriving DecidableEq

/-- A stored claim.  `zkProof = some b` embeds a stored ZK proof object
whose `isTrue` field is `b`; `none` means no proof was attached. -/
structure GameClaim where
  id : String
  playerId : String
  playerName : String
  targetPlayerId : String
  targetPlayerName : String
  claimType : ClaimType
  claimValue : Nat
  verified : Bool
  isTrue : Option Bool
  turn : Nat
  isSelfClaim : Bool
  zkProof : Option Bool
  verifiedOnChain : Bool
deriving DecidableEq

/-- An attack record. -/
structure Attack where
  cell : Nat
  turn : Nat
  round : Nat
  hit : Bool
  victimName : Option String
deriving DecidableEq

/-- The per-room session state (the `room` object of src/index.js).
Scores are the JS object `scores` embedded as an association list. -/
structure Room where
  code : String
  players : List Player
  phase : Phase
  turn : Nat
  currentRound : Nat
  totalRounds : Nat
  currentPlayerIndex : Nat
  claims : List GameClaim
  attacks : List Attack
  verificationsRemaining : Nat
  scores : List (String × PlayerScore)
  godHistory : Option GodHistory
  roundWinner : Option Winner
deriving DecidableEq

/-! Constants from src/shared/constants.js. -/

def DEFAULT_ROUNDS : Nat := 3

def TURNS_PER_ROUND : Nat := 3

def MAX_CONSECUTIVE_GOD_ROUNDS : Nat := 2

namespace POINTS

def MORTAL_SURVIVES_TURN : Int := 20

def TRUE_SELF_CLAIM : Int := 20

def GOD_FINDS_MORTAL : Int := 40

def GOD_PENALTY_MISS : Int := -20

def GOD_PENALTY_HIT_BONUS : Int := 15

end POINTS

/-- The grid adjacency map of src/shared/constants.js; keys outside 1..9
have no entry, which the source reads as an empty neighbour set
(`ADJACENCY_MAP[p]?.includes(t) || false`). -/
def ADJACENCY_MAP : Nat → List Nat
  | 1 => [2, 4]
  | 2 => [1, 3, 5]
  | 3 => [2, 6]
  | 4 => [1, 5, 7]
  | 5 => [2, 4, 6, 8]
  | 6 => [3, 5, 9]
  | 7 => [4, 8]
  | 8 => [5, 7, 9]
  | 9 => [6, 8]
  | _ => []

/-- Local claim verification (function verifyClaim of src/index.js).
`Math.ceil(tp / 3)` on a natural position is `(tp + 2) / 3`; a missing
claimer or target position is embedded as `none` (the source's `null`
and `undefined` both make every branch return false). -/
def verifyClaim (claimerPosition targetPosition : Option Nat)
    (claimType : ClaimType) (claimValue : Nat) : Bool :=
  match targetPosition with
  | none => false
  | some tp =>
    let targetRow := (tp + 2) / 3
    let targetCol := (tp - 1) % 3 + 1
    match claimType with
    | ClaimType.row => targetRow == claimValue
    | ClaimType.column => targetCol == claimValue
    | ClaimType.adjacent =>
      match claimerPosition with
      | none => false
      | some cp => decide (tp ∈ ADJACENCY_MAP cp)

/-! Helpers shared by the handlers. -/

/-- Update the first player with the given id (the source mutates the
single object returned by `players.find`). -/
def updateFirst (players : List Player) (pid : String) (f : Player → Player) : List Player :=
  match players with
  | [] => []
  | p :: rest => if p.id == pid then f p :: rest else p :: updateFirst rest pid f

/-- Update the first player satisfying a predicate. -/
def updateFirstP (players : List Player) (q : Player → Bool) (f : Player → Player) : List Player :=
  match players with
  | [] => []
  | p :: rest => if q p then f p :: rest else p :: updateFirstP rest q f

/-- Set `position = null` on the first player occupying the attacked cell
(`hitPlayer.position = null` in the source mutates the found object). -/
def killFirstAt (players : List Player) (cell : Nat) : List Player :=
  match players with
  | [] => []
  | p :: rest =>
    if p.position == some cell then { p with position := none } :: rest
    else p :: killFirstAt rest cell

/-- Number of living Suspects: players with role mortal and a position. -/
def countLiving (players : List Player) : Nat :=
  (players.filter (fun p => p.role == some Role.mortal && p.position != none)).length

/-- Append a score entry to an existing PlayerScore. -/
def addEntry (s : PlayerScore) (e : ScoreEntry) : PlayerScore :=
  { s with total := s.total + e.points, breakdown := s.breakdown ++ [e] }

/-- Apply a score entry to every binding of the given key. -/
def bumpScores (scores : List (String × PlayerScore)) (pid : String) (e : ScoreEntry) :
    List (String × PlayerScore) :=
  scores.map (fun kv => if kv.1 == pid then (kv.1, addEntry kv.2 e) else kv)

/-- Helper addScore of src/index.js: no-op when the player has no score
record, otherwise adds the points to the total and appends a breakdown
entry. -/
def addScore (room : Room) (playerId : String) (action : String) (points : Int)
    (round turn : Nat) : Room :=
  if (room.scores.find? (fun kv => kv.1 == playerId)).isNone then room
  else { room with scores := bumpScores room.scores playerId ⟨round, turn, action, points⟩ }

/-- Total score currently recorded for a player id (0 when absent). -/
def scoreTotal (room : Room) (pid : String) : Int :=
  ((room.scores.find? (fun kv => kv.1 == pid)).map (fun kv => kv.2.total)).getD 0

/-- Whether a player id has a score record. -/
def hasScore (room : Room) (pid : String) : Bool :=
  (room.scores.find? (fun kv => kv.1 == pid)).isSome

/-! Command handlers.  Each returns the room after the command together
with the error message emitted to the acting socket (if any); handlers
that silently `return` leave the room unchanged with no error. -/

/-- Handler for join_room (the room-lookup failure case lives outside the
session and is not modelled). -/
def join_room (room : Room) (newId newName : String) (avatar : Option AvatarConfig) :
    Room × Option String :=
  if room.players.length ≥ 4 then (room, some "Room is full")
  else if room.phase ≠ Phase.lobby then (room, some "Game already started")
  else ({ room with players := room.players ++
      [{ id := newId, name := newName, role := none, position := none,
         isHost := false, isReady := false, avatar := avatar }] }, none)

/-- Handler for toggle_ready: no phase check, flips the flag of the acting
player whenever they are in the room. -/
def toggle_ready (room : Room) (actorId : String) : Room × Option String :=
  match room.players.find? (fun p => p.id == actorId) with
  | none => (room, none)
  | some _ =>
    ({ room with players :=
        updateFirst room.players actorId (fun p => { p with isReady := !p.isReady }) }, none)

/-- Handler for set_round_config (host only, lobby phase). -/
def set_round_config (room : Room) (actorId : String) (totalRounds : Nat) :
    Room × Option String :=
  if room.phase ≠ Phase.lobby then (room, none)
  else
    match room.players.find? (fun p => p.id == actorId) with
    | none => (room, some "Only host can configure rounds")
    | some player =>
      if !player.isHost then (room, some "Only host can configure rounds")
      else if !(totalRounds == 3 || totalRounds == 4 || totalRounds == 5) then
        (room, some "Invalid round count")
      else ({ room with totalRounds := totalRounds }, none)

/-- Role assignment of start_game.  The source shuffles a copy of the
players and writes roles through the aliases: `shuffled[0].role = god`,
`shuffled[1..3].role = mortal`.  The random shuffle is embedded as the
permutation `perm` of player indices (`shuffled[k] = players[perm[k]]`). -/
def assignRoles (players : List Player) (perm : List Nat) : List Player :=
  players.enum.map (fun ip =>
    match perm.findIdx? (fun j => j == ip.1) with
    | some 0 => { ip.2 with role := some Role.god }
    | some 1 => { ip.2 with role := some Role.mortal }
    | some 2 => { ip.2 with role := some Role.mortal }
    | some 3 => { ip.2 with role := some Role.mortal }
    | _ => ip.2)

/-- Fresh zero score records for all players (`room.scores = {}` then one
record per player; a JS object write replaces any earlier binding). -/
def initScores (players : List Player) : List (String × PlayerScore) :=
  players.foldl (fun acc p =>
    if acc.any (fun kv => kv.1 == p.id) then
      acc.map (fun kv =>
        if kv.1 == p.id then
          (kv.1, { playerId := p.id, playerName := p.name, total := 0, breakdown := [] })
        else kv)
    else acc ++ [(p.id, { playerId := p.id, playerName := p.name, total := 0, breakdown := [] })])
    []

/-- Handler for start_game (the blockchain registration is fire-and-forget
and outside the session engine).  The source has no phase check: only the
host check and the player-count check guard it. -/
def start_game (room : Room) (actorId : String) (perm : List Nat) : Room × Option String :=
  match room.players.find? (fun p => p.id == actorId) with
  | none => (room, some "Only host can start the game")
  | some player =>
    if !player.isHost then (room, some "Only host can start the game")
    else if room.players.length < 4 then (room, some "Need 4 players to start")
    else
      let players := assignRoles room.players perm
      -- `const god = shuffled[0]`; an out-of-range shuffle index would throw in
      -- the source, but the shuffle always permutes the full player list.
      let godId := ((perm.head?.bind (fun i => room.players.get? i)).map (fun p => p.id)).getD ""
      let room1 : Room := { room with
        players := players,
        scores := initScores room.players,
        godHistory := some
          { playerId := godId, consecutiveRounds := 1, hasPenalty := false, missedAttacks := 0 },
        phase := Phase.setup,
        turn := 1,
        currentRound := 1 }
      (room1, none)

/-- Handler for select_position (setup phase, mortal role).  The only
command-specific precondition is the occupancy check over all players. -/
def select_position (room : Room) (actorId : String) (position : Nat) : Room × Option String :=
  if room.phase ≠ Phase.setup then (room, none)
  else
    match room.players.find? (fun p => p.id == actorId) with
    | none => (room, none)
    | some player =>
      if player.role ≠ some Role.mortal then (room, none)
      else if room.players.any (fun p => p.position == some position) then
        (room, some "Position already taken")
      else
        let players := updateFirst room.players actorId (fun p => { p with position := some position })
        let mortals := players.filter (fun p => p.role == some Role.mortal)
        let allReady := mortals.all (fun m => m.position != none)
        let room1 : Room := { room with players := players }
        if allReady then
          let room2 : Room := { room1 with
            phase := Phase.claiming,
            currentPlayerIndex := players.findIdx (fun p => p.role == some Role.mortal) }
          (room2, none)
        else (room1, none)

/-- Handler for submit_claim (claiming phase, living mortal). -/
def submit_claim (room : Room) (actorId : String) (claimType : ClaimType) (claimValue : Nat)
    (targetPlayerId : String) (zkProof : Option Bool) : Room × Option String :=
  if room.phase ≠ Phase.claiming then (room, none)
  else
    match room.players.find? (fun p => p.id == actorId) with
    | none => (room, none)
    | some player =>
      if player.role ≠ some Role.mortal then (room, none)
      else if player.position == none then (room, some "Dead players cannot make claims")
      else if room.claims.any (fun c => c.playerId == actorId && c.turn == room.turn) then
        (room, some "You already made a claim this turn")
      else
        match room.players.find? (fun p => p.id == targetPlayerId) with
        | none => (room, some "Invalid target player")
        | some targetPlayer =>
          if targetPlayer.role ≠ some Role.mortal then (room, some "Invalid target player")
          else if claimType == ClaimType.adjacent && targetPlayerId == actorId then
            (room, some "Cannot claim to be adjacent to yourself")
          else if room.claims.any (fun c =>
              c.targetPlayerId == targetPlayerId && c.claimType == claimType &&
              c.claimValue == claimValue) then
            (room, some "This claim was already made")
          else
            let newClaim : GameClaim :=
              { id := room.code ++ "-" ++ toString room.turn ++ "-" ++ actorId,
                playerId := actorId, playerName := player.name,
                targetPlayerId := targetPlayerId, targetPlayerName := targetPlayer.name,
                claimType := claimType, claimValue := claimValue,
                verified := false, isTrue := none, turn := room.turn,
                isSelfClaim := targetPlayerId == actorId,
                zkProof := zkProof, verifiedOnChain := false }
            let room1 : Room := { room with claims := room.claims ++ [newClaim] }
            let aliveMortals := room1.players.filter
              (fun p => p.role == some Role.mortal && p.position != none)
            let claimsThisTurn := room1.claims.filter (fun c => c.turn == room1.turn)
            if claimsThisTurn.length ≥ aliveMortals.length then
              ({ room1 with phase := Phase.deduction }, none)
            else (room1, none)

/-- Which code path a verify_claim call takes: delegated on-chain
verification, local fallback after a delegated failure, or the plain
local path (no proof attached or blockchain disabled).  The choice
depends on process configuration and on the external service, so it is
an oracle parameter of the handler. -/
inductive VPath where
  | delegated
  | fallback
  | localCheck
deriving DecidableEq

/-- Update every claim with the given id (claim ids are unique by
construction; the source mutates the object found by id). -/
def setClaim (claims : List GameClaim) (cid : String) (f : GameClaim → GameClaim) :
    List GameClaim :=
  claims.map (fun c => if c.id == cid then f c else c)

/-- Local truth computation used by the fallback and local paths:
`verifyClaim(claimer?.position, target?.position, type, value)`.
A missing player yields an undefined position, which verifyClaim
treats exactly like a missing position (every branch is false). -/
def localVerifyResult (room : Room) (c : GameClaim) : Bool :=
  let claimer := room.players.find? (fun p => p.id == c.playerId)
  let target := room.players.find? (fun p => p.id == c.targetPlayerId)
  verifyClaim (claimer.bind (fun p => p.position)) (target.bind (fun p => p.position))
    c.claimType c.claimValue

/-- Handler for verify_claim (deduction phase, Adjudicator only).
All three paths mark the claim verified, award the true-self-claim
bonus when it applies, and decrement the verification budget by one.
The delegated path takes the truth value from the stored proof
(`claim.zkProof.isTrue`), the other two compute it locally;
only the delegated path sets `verifiedOnChain`. -/
def verify_claim (room : Room) (actorId : String) (claimId : String) (path : VPath) :
    Room × Option String :=
  if room.phase ≠ Phase.deduction then (room, none)
  else
    match room.players.find? (fun p => p.id == actorId) with
    | none => (room, some "Only God can verify claims")
    | some player =>
      if player.role ≠ some Role.god then (room, some "Only God can verify claims")
      else if room.verificationsRemaining ≤ 0 then
        (room, some "No verifications remaining this turn")
      else
        match room.claims.find? (fun c => c.id == claimId) with
        | none => (room, some "Claim not found")
        | some claim =>
          if claim.verified then (room, some "Claim already verified")
          else
            let isTrue :=
              match path with
              | VPath.delegated => claim.zkProof.getD false
              | _ => localVerifyResult room claim
            let onChain : Bool := path == VPath.delegated
            let room1 : Room := { room with
              claims := setClaim room.claims claimId (fun c =>
                { c with verified := true, isTrue := some isTrue, verifiedOnChain := onChain }) }
            let room2 :=
              if isTrue && claim.isSelfClaim then
                addScore room1 claim.playerId "true_self_claim" POINTS.TRUE_SELF_CLAIM
                  room1.currentRound room1.turn
              else room1
            ({ room2 with verificationsRemaining := room2.verificationsRemaining - 1 }, none)

/-- End-of-round bookkeeping of handleEndOfRound: on the final round the
phase becomes ended (the final ranking is only emitted, not stored);
otherwise the phase becomes round_transition.  The Suspects-win branch
additionally schedules a delayed timer, an external event not part of
the synchronous state change. -/
def handleEndOfRound (room : Room) (winner : Winner) : Room :=
  if room.currentRound ≥ room.totalRounds then
    { room with phase := Phase.ended }
  else
    { room with phase := Phase.round_transition, roundWinner := some winner }

/-- Append the attack record (`room.attacks.push`), done before the hit
player is marked dead. -/
def attackRecord (room : Room) (cell : Nat) : Room :=
  let hitPlayer := room.players.find? (fun p => p.position == some cell)
  { room with attacks := room.attacks ++
      [{ cell := cell, turn := room.turn, round := room.currentRound,
         hit := hitPlayer.isSome, victimName := hitPlayer.map (fun p => p.name) }] }

/-- Hit/miss resolution and Adjudicator scoring of attack_cell.  On a hit
the occupant dies and the Adjudicator scores the find bonus (plus the
penalty-hit bonus when penalized); on a miss missedAttacks increments
and the penalized Adjudicator loses points.  A room without godHistory
would throw in the source (unreachable once a game has started). -/
def attackStrike (room : Room) (cell : Nat) : Room :=
  let hitPlayer := room.players.find? (fun p => p.position == some cell)
  let godId := ((room.players.find? (fun p => p.role == some Role.god)).map
    (fun p => p.id)).getD ""
  let hasPenalty := (room.godHistory.map (fun gh => gh.hasPenalty)).getD false
  match hitPlayer with
  | some _ =>
    let room1 : Room := { room with players := killFirstAt room.players cell }
    addScore room1 godId "god_find"
      (POINTS.GOD_FINDS_MORTAL + (if hasPenalty then POINTS.GOD_PENALTY_HIT_BONUS else 0))
      room1.currentRound room1.turn
  | none =>
    let room1 : Room := { room with
      godHistory := room.godHistory.map (fun gh =>
        { gh with missedAttacks := gh.missedAttacks + 1 }) }
    if hasPenalty then
      addScore room1 godId "god_penalty_miss" POINTS.GOD_PENALTY_MISS
        room1.currentRound room1.turn
    else room1

/-- Left fold awarding the survive-turn bonus to each listed player. -/
def surviveFold (ms : List Player) (r : Room) : Room :=
  ms.foldl (fun acc m =>
    addScore acc m.id "survive_turn" POINTS.MORTAL_SURVIVES_TURN acc.currentRound acc.turn) r

/-- Survival scoring of attack_cell: every mortal still alive after the
strike earns the survive-turn bonus. -/
def attackSurvival (room : Room) : Room :=
  surviveFold (room.players.filter
    (fun p => p.role == some Role.mortal && p.position != none)) room

/-- Round-end check of attack_cell: Adjudicator wins when no mortal is
left, Suspects win when the turn limit is reached, otherwise the next
turn starts (turn increments, phase back to claiming, budget +2). -/
def attackAdvance (room : Room) : Room :=
  let aliveMortals := room.players.filter
    (fun p => p.role == some Role.mortal && p.position != none)
  if aliveMortals.length == 0 then
    handleEndOfRound { room with roundWinner := some Winner.god } Winner.god
  else if room.turn ≥ TURNS_PER_ROUND then
    handleEndOfRound { room with roundWinner := some Winner.mortals } Winner.mortals
  else
    { room with
      turn := room.turn + 1,
      phase := Phase.claiming,
      verificationsRemaining := room.verificationsRemaining + 2 }

/-- Handler for attack_cell (deduction phase, Adjudicator only). -/
def attack_cell (room : Room) (actorId : String) (cell : Nat) : Room × Option String :=
  if room.phase ≠ Phase.deduction then (room, none)
  else
    match room.players.find? (fun p => p.id == actorId) with
    | none => (room, none)
    | some player =>
      if player.role ≠ some Role.god then (room, none)
      else (attackAdvance (attackSurvival (attackStrike (attackRecord room cell) cell)), none)

/-- Clear the positions of all mortals. -/
def clearMortalPositions (players : List Player) : List Player :=
  players.map (fun p => if p.role == some Role.mortal then { p with position := none } else p)

/-- Function startNextRound of src/index.js.  `keepGodId = some _` keeps
the Adjudicator (only mortal positions are cleared); otherwise a new
Adjudicator is drawn from the surviving mortals (or, when none survive,
from everyone except the current Adjudicator) and godHistory is replaced
wholesale.  The random draw is embedded as the in-range index `pick`. -/
def startNextRound (room : Room) (keepGodId : Option String) (pick : Nat) : Room :=
  let room1 : Room := { room with
    currentRound := room.currentRound + 1,
    turn := 1,
    roundWinner := none,
    verificationsRemaining := 2,
    claims := [],
    attacks := [] }
  match keepGodId with
  | some _ =>
    { room1 with players := clearMortalPositions room1.players, phase := Phase.setup }
  | none =>
    let currentGodId := ((room1.players.find? (fun p => p.role == some Role.god)).map
      (fun p => p.id)).getD ""
    let aliveMortals := room1.players.filter
      (fun p => p.role == some Role.mortal && p.position != none)
    let candidates :=
      if aliveMortals.length > 0 then aliveMortals
      else room1.players.filter (fun p => p.id != currentGodId)
    -- `candidates[Math.floor(Math.random() * candidates.length)]`; an empty
    -- candidate list would throw in the source.
    let newGodId := ((candidates.get? (pick % candidates.length)).map (fun p => p.id)).getD ""
    let players1 := updateFirstP room1.players (fun p => p.role == some Role.god)
      (fun p => { p with role := some Role.mortal, position := none })
    let players2 := updateFirst players1 newGodId
      (fun p => { p with role := some Role.god, position := none })
    let players3 := clearMortalPositions players2
    { room1 with
      players := players3,
      godHistory := some
        { playerId := newGodId, consecutiveRounds := 1, hasPenalty := false, missedAttacks := 0 },
      phase := Phase.setup }

/-- Handler for god_choice (round_transition phase, Adjudicator only).
A `stay` choice is rejected when the Adjudicator has reached the
consecutive-round limit with at least one missed attack
(`canStay = not (consecutiveRounds >= MAX_CONSECUTIVE_GOD_ROUNDS - 1 and
missedAttacks > 0)`); an accepted stay sets the penalty, increments
consecutiveRounds, resets missedAttacks and starts the next round with
the same Adjudicator.  A `cede` choice always starts the next round with
a newly drawn Adjudicator. -/
def god_choice (room : Room) (actorId : String) (choice : String) (pick : Nat) :
    Room × Option String :=
  if room.phase ≠ Phase.round_transition then (room, none)
  else
    match room.players.find? (fun p => p.id == actorId) with
    | none => (room, some "Only God can make this choice")
    | some player =>
      if player.role ≠ some Role.god then (room, some "Only God can make this choice")
      else if choice == "stay" then
        match room.godHistory with
        | none => (room, none)
        | some gh =>
          if gh.consecutiveRounds ≥ MAX_CONSECUTIVE_GOD_ROUNDS - 1 ∧ gh.missedAttacks > 0 then
            (room, some "Cannot stay as God for 3 consecutive rounds after missing")
          else
            let room1 : Room := { room with
              godHistory := some { gh with
                hasPenalty := true,
                consecutiveRounds := gh.consecutiveRounds + 1,
                missedAttacks := 0 } }
            (startNextRound room1 (some player.id) pick, none)
      else if choice == "cede" then
        (startNextRound room none pick, none)
      else (room, none)

/-! Theorems.  Each claim of the specification gets one theorem below,
with helper lemmas shared between them. -/

/-- C3: local claim verification computes truth exactly as specified: a
Row claim is true iff the ceiling of targetPosition / 3 equals the
claim value, a Column claim is true iff ((targetPosition - 1) mod 3) + 1
equals the claim value, an Adjacent claim is true iff the claimant is
alive and the target position lies in the adjacency set of the
claimant position (position 5 has exactly the neighbours 2, 4, 6, 8 and
position 1 exactly 2, 4), and any claim about a target without a
position is false. -/
theorem C3_verifyClaim_correct :
    (∀ cp ct v, verifyClaim cp none ct v = false) ∧
    (∀ cp tp v, 1 ≤ tp →
      (verifyClaim cp (some tp) ClaimType.row v = true ↔ tp ⌈/⌉ 3 = v)) ∧
    (∀ cp tp v, 1 ≤ tp →
      (verifyClaim cp (some tp) ClaimType.column v = true ↔ (tp - 1) % 3 + 1 = v)) ∧
    (∀ tp v, verifyClaim none (some tp) ClaimType.adjacent v = false) ∧
    (∀ cp tp v,
      verifyClaim (some cp) (some tp) ClaimType.adjacent v = true ↔ tp ∈ ADJACENCY_MAP cp) ∧
    (∀ tp v, verifyClaim (some 5) (some tp) ClaimType.adjacent v = true ↔
      (tp = 2 ∨ tp = 4 ∨ tp = 6 ∨ tp = 8)) ∧
    (∀ tp v, verifyClaim (some 1) (some tp) ClaimType.adjacent v = true ↔
      (tp = 2 ∨ tp = 4)) := by
  refine ⟨fun cp ct v => rfl, ?_, ?_, fun tp v => rfl, ?_, ?_, ?_⟩
  · intro cp tp v _
    simp [verifyClaim, Nat.ceilDiv_eq_add_pred_div]
  · intro cp tp v _
    simp [verifyClaim]
  · intro cp tp v
    simp [verifyClaim]
  · intro tp v
    simp [verifyClaim, ADJACENCY_MAP]
  · intro tp v
    simp [verifyClaim, ADJACENCY_MAP]

/-- Witness for C3: instantiation at concrete positions, with the two
row/column hypotheses discharged at position 5. -/
theorem C3_verifyClaim_correct_witness :
    (verifyClaim (some 1) (some 5) ClaimType.row 2 = true ↔ (5 : Nat) ⌈/⌉ 3 = 2) ∧
    (verifyClaim (some 1) (some 5) ClaimType.column 2 = true ↔ (5 - 1) % 3 + 1 = 2) := by
  exact ⟨C3_verifyClaim_correct.2.1 (some 1) 5 2 (by decide),
    C3_verifyClaim_correct.2.2.1 (some 1) 5 2 (by decide)⟩

/-- Concrete player builder for the concrete test rooms below. -/
def mkPlayer (id name : String) (role : Option Role) (position : Option Nat)
    (isHost : Bool) : Player :=
  { id := id, name := name, role := role, position := position,
    isHost := isHost, isReady := false, avatar := none }

/-- A concrete session whose game has ended (last round, Adjudicator
killed every Suspect). -/
def endedRoom : Room :=
  { code := "ROOMA1",
    players := [mkPlayer "p0" "Ada" (some Role.god) none true,
                mkPlayer "p1" "Bo" (some Role.mortal) none false,
                mkPlayer "p2" "Cy" (some Role.mortal) none false,
                mkPlayer "p3" "Di" (some Role.mortal) none false],
    phase := Phase.ended,
    turn := 2, currentRound := 3, totalRounds := 3, currentPlayerIndex := 1,
    claims := [], attacks := [],
    verificationsRemaining := 3,
    scores := [("p0", { playerId := "p0", playerName := "Ada", total := 40,
                        breakdown := [{ round := 3, turn := 2, action := "god_find", points := 40 }] }),
               ("p1", { playerId := "p1", playerName := "Bo", total := 0, breakdown := [] }),
               ("p2", { playerId := "p2", playerName := "Cy", total := 0, breakdown := [] }),
               ("p3", { playerId := "p3", playerName := "Di", total := 0, breakdown := [] })],
    godHistory := some
      { playerId := "p0", consecutiveRounds := 1, hasPenalty := false, missedAttacks := 0 },
    roundWinner := some Winner.god }

/-- C1 counterexample: in a session whose phase is ended, the
toggle_ready command still mutates the session (it has no phase guard),
so the claim that no command mutates an ended session fails. -/
theorem C1_counterexample :
    endedRoom.phase = Phase.ended ∧ (toggle_ready endedRoom "p1").1 ≠ endedRoom := by
  decide

/-- C1 (amended): once the phase is ended, every command whose handler
carries a phase guard (join_room, set_round_config, select_position,
submit_claim, verify_claim, attack_cell, god_choice) leaves the session
unchanged; toggle_ready, start_game and disconnect have no ended-phase
guard and can still mutate the session. -/
theorem C1_ended_guarded_commands_frozen (room : Room) (h : room.phase = Phase.ended) :
    (∀ i n a, (join_room room i n a).1 = room) ∧
    (∀ aid tr, (set_round_config room aid tr).1 = room) ∧
    (∀ aid v, (select_position room aid v).1 = room) ∧
    (∀ aid ct cv tid zk, (submit_claim room aid ct cv tid zk).1 = room) ∧
    (∀ aid cid path, (verify_claim room aid cid path).1 = room) ∧
    (∀ aid cell, (attack_cell room aid cell).1 = room) ∧
    (∀ aid ch pick, (god_choice room aid ch pick).1 = room) := by
  refine ⟨?_, ?_, ?_, ?_, ?_, ?_, ?_⟩ <;> intros <;>
    simp [join_room, set_round_config, select_position, submit_claim, verify_claim,
      attack_cell, god_choice, h]
  split <;> rfl

/-- Witness for C1: the amended theorem applied to the concrete ended
room, hypothesis discharged definitionally. -/
theorem C1_ended_guarded_commands_frozen_witness :
    (select_position endedRoom "p1" 7).1 = endedRoom :=
  (C1_ended_guarded_commands_frozen endedRoom rfl).2.2.1 "p1" 7

/-- A concrete mid-game session in the claiming phase with its four
players and host "p0". -/
def midGameRoom : Room :=
  { code := "ROOMB2",
    players := [mkPlayer "p0" "Ada" (some Role.god) none true,
                mkPlayer "p1" "Bo" (some Role.mortal) (some 1) false,
                mkPlayer "p2" "Cy" (some Role.mortal) (some 5) false,
                mkPlayer "p3" "Di" (some Role.mortal) (some 9) false],
    phase := Phase.claiming,
    turn := 1, currentRound := 1, totalRounds := 3, currentPlayerIndex := 1,
    claims := [], attacks := [],
    verificationsRemaining := 2,
    scores := [("p0", { playerId := "p0", playerName := "Ada", total := 0, breakdown := [] }),
               ("p1", { playerId := "p1", playerName := "Bo", total := 0, breakdown := [] }),
               ("p2", { playerId := "p2", playerName := "Cy", total := 0, breakdown := [] }),
               ("p3", { playerId := "p3", playerName := "Di", total := 0, breakdown := [] })],
    godHistory := some
      { playerId := "p0", consecutiveRounds := 1, hasPenalty := false, missedAttacks := 0 },
    roundWinner := none }

/-- C2 counterexample: the start_game handler has no phase guard, so a
host issuing start_game in the claiming phase succeeds (no error) and
mutates the session back to setup, contradicting the claim that
start_game outside the lobby is rejected without mutation. -/
theorem C2_counterexample :
    midGameRoom.phase ≠ Phase.lobby ∧
    (start_game midGameRoom "p0" [0, 1, 2, 3]).2 = none ∧
    (start_game midGameRoom "p0" [0, 1, 2, 3]).1.phase = Phase.setup ∧
    (start_game midGameRoom "p0" [0, 1, 2, 3]).1 ≠ midGameRoom := by
  decide

/-- C2 (amended): start_game succeeds exactly when the acting player is
the host and the room has at least four players, in any phase (the
handler checks no phase); a missing or non-host actor, or fewer than
four players, is rejected with an error and no mutation. -/
theorem C2_start_game_behavior (room : Room) (actorId : String) (perm : List Nat) :
    (∀ p, room.players.find? (fun q => q.id == actorId) = some p → p.isHost = true →
      room.players.length ≥ 4 →
      (start_game room actorId perm).2 = none ∧
      (start_game room actorId perm).1.phase = Phase.setup ∧
      (start_game room actorId perm).1.turn = 1 ∧
      (start_game room actorId perm).1.currentRound = 1) ∧
    (room.players.find? (fun q => q.id == actorId) = none →
      start_game room actorId perm = (room, some "Only host can start the game")) ∧
    (∀ p, room.players.find? (fun q => q.id == actorId) = some p → p.isHost = false →
      start_game room actorId perm = (room, some "Only host can start the game")) ∧
    (∀ p, room.players.find? (fun q => q.id == actorId) = some p → p.isHost = true →
      room.players.length < 4 →
      start_game room actorId perm = (room, some "Need 4 players to start")) := by
  refine ⟨?_, ?_, ?_, ?_⟩
  · intro p hfind hhost hlen
    simp [start_game, hfind, hhost, Nat.not_lt.mpr hlen]
  · intro hfind
    simp [start_game, hfind]
  · intro p hfind hhost
    simp [start_game, hfind, hhost]
  · intro p hfind hhost hlen
    simp [start_game, hfind, hhost, hlen]

/-- A concrete lobby with four players and host "p0". -/
def lobbyRoom : Room :=
  { code := "ROOMC3",
    players := [mkPlayer "p0" "Ada" none none true,
                mkPlayer "p1" "Bo" none none false,
                mkPlayer "p2" "Cy" none none false,
                mkPlayer "p3" "Di" none none false],
    phase := Phase.lobby,
    turn := 0, currentRound := 1, totalRounds := 3, currentPlayerIndex := 0,
    claims := [], attacks := [],
    verificationsRemaining := 2,
    scores := [],
    godHistory := none,
    roundWinner := none }

/-- Witness for C2: the amended theorem applied to the concrete lobby
room, hypotheses discharged by evaluation. -/
theorem C2_start_game_behavior_witness :
    (start_game lobbyRoom "p0" [2, 0, 1, 3]).2 = none ∧
    (start_game lobbyRoom "p0" [2, 0, 1, 3]).1.phase = Phase.setup := by
  have h := (C2_start_game_behavior lobbyRoom "p0" [2, 0, 1, 3]).1
    (mkPlayer "p0" "Ada" none none true) (by decide) (by decide) (by decide)
  exact ⟨h.1, h.2.1⟩

/-- C10: in the setup phase, for a mortal actor the only command-specific
precondition of select_position is that no player in the room currently
holds the requested value; when the value is free it is stored as the
actor's position whatever the value is (no 1..9 range check) and
whatever position the actor held before (overwriting is allowed). -/
theorem C10_select_position_behavior (room : Room) (actorId : String) (v : Nat)
    (hphase : room.phase = Phase.setup)
    (p : Player) (hfind : room.players.find? (fun q => q.id == actorId) = some p)
    (hrole : p.role = some Role.mortal) :
    (room.players.any (fun q => q.position == some v) = true →
      select_position room actorId v = (room, some "Position already taken")) ∧
    (room.players.any (fun q => q.position == some v) = false →
      (select_position room actorId v).2 = none ∧
      (select_position room actorId v).1.players =
        updateFirst room.players actorId (fun q => { q with position := some v })) := by
  constructor
  · intro htaken
    simp [select_position, hphase, hfind, hrole, htaken]
  · intro hfree
    simp only [select_position, hphase, hfind, hrole, hfree]
    simp only [ne_eq, not_true_eq_false, if_false, Bool.false_eq_true, reduceIte]
    split <;> simp

/-- A concrete session in the setup phase; "p2" already holds position 5
and "p3" has not chosen yet. -/
def setupRoom : Room :=
  { code := "ROOMD4",
    players := [mkPlayer "p0" "Ada" (some Role.god) none true,
                mkPlayer "p1" "Bo" (some Role.mortal) (some 1) false,
                mkPlayer "p2" "Cy" (some Role.mortal) (some 5) false,
                mkPlayer "p3" "Di" (some Role.mortal) none false],
    phase := Phase.setup,
    turn := 1, currentRound := 1, totalRounds := 3, currentPlayerIndex := 1,
    claims := [], attacks := [],
    verificationsRemaining := 2,
    scores := [],
    godHistory := some
      { playerId := "p0", consecutiveRounds := 1, hasPenalty := false, missedAttacks := 0 },
    roundWinner := none }

/-- Witness for C10: the free value 42 lies outside 1..9 and the actor
"p2" already holds position 5, yet the value is accepted and overwrites
the actor's position. -/
theorem C10_select_position_behavior_witness :
    (select_position setupRoom "p2" 42).2 = none ∧
    (select_position setupRoom "p2" 42).1.players =
      updateFirst setupRoom.players "p2" (fun q => { q with position := some 42 }) :=
  (C10_select_position_behavior setupRoom "p2" 42 rfl
    (mkPlayer "p2" "Cy" (some Role.mortal) (some 5) false) (by decide) rfl).2 (by decide)

/-- A claim stored during turn 1 of the current round. -/
def oldClaim : GameClaim :=
  { id := "ROOME5-1-p2", playerId := "p2", playerName := "Cy",
    targetPlayerId := "p3", targetPlayerName := "Di",
    claimType := ClaimType.row, claimValue := 1,
    verified := true, isTrue := some false, turn := 1,
    isSelfClaim := false, zkProof := none, verifiedOnChain := false }

/-- A concrete session in the claiming phase of turn 2 whose claim
ledger still holds oldClaim from turn 1 of the same round. -/
def dupClaimRoom : Room :=
  { code := "ROOME5",
    players := [mkPlayer "p0" "Ada" (some Role.god) none true,
                mkPlayer "p1" "Bo" (some Role.mortal) (some 1) false,
                mkPlayer "p2" "Cy" (some Role.mortal) (some 5) false,
                mkPlayer "p3" "Di" (some Role.mortal) (some 9) false],
    phase := Phase.claiming,
    turn := 2, currentRound := 1, totalRounds := 3, currentPlayerIndex := 1,
    claims := [oldClaim], attacks := [],
    verificationsRemaining := 2,
    scores := [],
    godHistory := some
      { playerId := "p0", consecutiveRounds := 1, hasPenalty := false, missedAttacks := 0 },
    roundWinner := none }

/-- C7 counterexample: the duplicate check of submit_claim scans the
whole claim ledger of the round with no turn filter, so a triple that
was claimed only in an earlier turn (turn 1, while the room is in turn
2) is rejected, contradicting the claim that such submissions are not
rejected on this ground. -/
theorem C7_counterexample :
    dupClaimRoom.turn = 2 ∧ oldClaim ∈ dupClaimRoom.claims ∧ oldClaim.turn = 1 ∧
    dupClaimRoom.claims.any
      (fun c => c.playerId == "p1" && c.turn == dupClaimRoom.turn) = false ∧
    submit_claim dupClaimRoom "p1" ClaimType.row 1 "p3" none =
      (dupClaimRoom, some "This claim was already made") := by
  decide

/-- C7 (amended): submit_claim rejects a claim with an error and no
mutation when an identical (target, type, value) triple was already
claimed by anyone at any turn of the current round (the ledger is only
cleared at round start); when no identical triple exists in the round's
ledger the claim is accepted and appended. -/
theorem C7_duplicate_scope (room : Room) (actorId : String) (ct : ClaimType) (cv : Nat)
    (targetId : String) (zk : Option Bool)
    (hphase : room.phase = Phase.claiming)
    (p : Player) (hfind : room.players.find? (fun q => q.id == actorId) = some p)
    (hrole : p.role = some Role.mortal)
    (halive : (p.position == none) = false)
    (hnotyet : room.claims.any
      (fun c => c.playerId == actorId && c.turn == room.turn) = false)
    (t : Player) (htfind : room.players.find? (fun q => q.id == targetId) = some t)
    (htrole : t.role = some Role.mortal)
    (hnotselfadj : (ct == ClaimType.adjacent && targetId == actorId) = false) :
    (room.claims.any (fun c => c.targetPlayerId == targetId &&
        c.claimType == ct && c.claimValue == cv) = true →
      submit_claim room actorId ct cv targetId zk =
        (room, some "This claim was already made")) ∧
    (room.claims.any (fun c => c.targetPlayerId == targetId &&
        c.claimType == ct && c.claimValue == cv) = false →
      (submit_claim room actorId ct cv targetId zk).2 = none ∧
      (submit_claim room actorId ct cv targetId zk).1.claims.length =
        room.claims.length + 1) := by
  constructor
  · intro hdup
    simp [submit_claim, hphase, hfind, hrole, halive, hnotyet, htfind, htrole,
      hnotselfadj, hdup]
  · intro hdup
    simp only [submit_claim, hphase, hfind, hrole, halive, hnotyet, htfind, htrole,
      hnotselfadj, hdup]
    simp only [ne_eq, not_true_eq_false, if_false, Bool.false_eq_true, reduceIte]
    split <;> simp

/-- Witness for C7: the amended theorem applied to the concrete room,
rejecting the turn-1 triple resubmitted during turn 2. -/
theorem C7_duplicate_scope_witness :
    submit_claim dupClaimRoom "p1" ClaimType.row 1 "p3" none =
      (dupClaimRoom, some "This claim was already made") :=
  (C7_duplicate_scope dupClaimRoom "p1" ClaimType.row 1 "p3" none rfl
    (mkPlayer "p1" "Bo" (some Role.mortal) (some 1) false) (by decide) rfl (by decide)
    (by decide) (mkPlayer "p3" "Di" (some Role.mortal) (some 9) false) (by decide) rfl
    (by decide)).1 (by decide)

/-- A concrete session in the claiming phase whose target "p3" is a dead
Suspect (role mortal, position none). -/
def deadTargetRoom : Room :=
  { code := "ROOMF6",
    players := [mkPlayer "p0" "Ada" (some Role.god) none true,
                mkPlayer "p1" "Bo" (some Role.mortal) (some 1) false,
                mkPlayer "p2" "Cy" (some Role.mortal) (some 5) false,
                mkPlayer "p3" "Di" (some Role.mortal) none false],
    phase := Phase.claiming,
    turn := 2, currentRound := 1, totalRounds := 3, currentPlayerIndex := 1,
    claims := [], attacks := [],
    verificationsRemaining := 2,
    scores := [],
    godHistory := some
      { playerId := "p0", consecutiveRounds := 1, hasPenalty := false, missedAttacks := 0 },
    roundWinner := none }

/-- C8 counterexample: submit_claim only checks that the target has role
mortal, not that the target is alive, so a claim about the dead Suspect
"p3" (position none) is accepted and appended instead of rejected. -/
theorem C8_counterexample :
    (deadTargetRoom.players.find? (fun p => p.id == "p3")).map
      (fun p => (p.role, p.position)) = some (some Role.mortal, none) ∧
    (submit_claim deadTargetRoom "p1" ClaimType.row 3 "p3" none).2 = none ∧
    (submit_claim deadTargetRoom "p1" ClaimType.row 3 "p3" none).1.claims.length = 1 := by
  decide

/-- C8 (amended): submit_claim rejects a claim with an error and no
mutation when the target is absent or does not have role mortal; target
liveness is not checked, so a claim about a dead Suspect (role mortal,
position none) passes the target check and is accepted when the other
checks pass. -/
theorem C8_target_role_check (room : Room) (actorId : String) (ct : ClaimType) (cv : Nat)
    (targetId : String) (zk : Option Bool)
    (hphase : room.phase = Phase.claiming)
    (p : Player) (hfind : room.players.find? (fun q => q.id == actorId) = some p)
    (hrole : p.role = some Role.mortal)
    (halive : (p.position == none) = false)
    (hnotyet : room.claims.any
      (fun c => c.playerId == actorId && c.turn == room.turn) = false) :
    (room.players.find? (fun q => q.id == targetId) = none →
      submit_claim room actorId ct cv targetId zk = (room, some "Invalid target player")) ∧
    (∀ t, room.players.find? (fun q => q.id == targetId) = some t →
      t.role ≠ some Role.mortal →
      submit_claim room actorId ct cv targetId zk = (room, some "Invalid target player")) ∧
    (∀ t, room.players.find? (fun q => q.id == targetId) = some t →
      t.role = some Role.mortal →
      (ct == ClaimType.adjacent && targetId == actorId) = false →
      room.claims.any (fun c => c.targetPlayerId == targetId &&
        c.claimType == ct && c.claimValue == cv) = false →
      (submit_claim room actorId ct cv targetId zk).2 = none ∧
      (submit_claim room actorId ct cv targetId zk).1.claims.length =
        room.claims.length + 1) := by
  refine ⟨?_, ?_, ?_⟩
  · intro htnone
    simp [submit_claim, hphase, hfind, hrole, halive, hnotyet, htnone]
  · intro t htfind htrole
    simp [submit_claim, hphase, hfind, hrole, halive, hnotyet, htfind, htrole]
  · intro t htfind htrole hnotselfadj hdup
    simp only [submit_claim, hphase, hfind, hrole, halive, hnotyet, htfind, htrole,
      hnotselfadj, hdup]
    simp only [ne_eq, not_true_eq_false, if_false, Bool.false_eq_true, reduceIte]
    split <;> simp

/-- Witness for C8: the amended theorem applied to the concrete room
with the dead Suspect target. -/
theorem C8_target_role_check_witness :
    (submit_claim deadTargetRoom "p1" ClaimType.row 3 "p3" none).2 = none ∧
    (submit_claim deadTargetRoom "p1" ClaimType.row 3 "p3" none).1.claims.length =
      deadTargetRoom.claims.length + 1 :=
  (C8_target_role_check deadTargetRoom "p1" ClaimType.row 3 "p3" none rfl
    (mkPlayer "p1" "Bo" (some Role.mortal) (some 1) false) (by decide) rfl (by decide)
    (by decide)).2.2 (mkPlayer "p3" "Di" (some Role.mortal) none false) (by decide) rfl
    (by decide) (by decide)

/-- startNextRound always moves the phase to setup. -/
theorem startNextRound_phase (room : Room) (kg : Option String) (pick : Nat) :
    (startNextRound room kg pick).phase = Phase.setup := by
  unfold startNextRound
  cases kg <;> rfl

/-- startNextRound always increments the round counter. -/
theorem startNextRound_currentRound (room : Room) (kg : Option String) (pick : Nat) :
    (startNextRound room kg pick).currentRound = room.currentRound + 1 := by
  unfold startNextRound
  cases kg <;> rfl

/-- startNextRound always resets the verification budget to the
per-round base of 2. -/
theorem startNextRound_verificationsRemaining (room : Room) (kg : Option String) (pick : Nat) :
    (startNextRound room kg pick).verificationsRemaining = 2 := by
  unfold startNextRound
  cases kg <;> rfl

/-- startNextRound always clears the claim ledger. -/
theorem startNextRound_claims (room : Room) (kg : Option String) (pick : Nat) :
    (startNextRound room kg pick).claims = [] := by
  unfold startNextRound
  cases kg <;> rfl

/-- startNextRound always clears the attack list. -/
theorem startNextRound_attacks (room : Room) (kg : Option String) (pick : Nat) :
    (startNextRound room kg pick).attacks = [] := by
  unfold startNextRound
  cases kg <;> rfl

/-- startNextRound always resets the turn counter to 1. -/
theorem startNextRound_turn (room : Room) (kg : Option String) (pick : Nat) :
    (startNextRound room kg pick).turn = 1 := by
  unfold startNextRound
  cases kg <;> rfl

/-- When the Adjudicator is kept, startNextRound leaves godHistory
untouched. -/
theorem startNextRound_keep_godHistory (room : Room) (x : String) (pick : Nat) :
    (startNextRound room (some x) pick).godHistory = room.godHistory := by
  rfl

/-- Clearing mortal positions preserves every player's role. -/
theorem clearMortalPositions_map_role (l : List Player) :
    (clearMortalPositions l).map (fun q => q.role) = l.map (fun q => q.role) := by
  induction l with
  | nil => rfl
  | cons p rest ih =>
    simp only [clearMortalPositions, List.map_cons] at ih ⊢
    rw [ih]
    congr 1
    split <;> rfl

/-- When the Adjudicator is kept, startNextRound preserves every
player's role (only mortal positions are cleared). -/
theorem startNextRound_keep_map_role (room : Room) (x : String) (pick : Nat) :
    (startNextRound room (some x) pick).players.map (fun q => q.role) =
      room.players.map (fun q => q.role) := by
  unfold startNextRound
  exact clearMortalPositions_map_role room.players

/-- C5: in round_transition, the Adjudicator's stay choice is rejected
with a validation error and no mutation exactly when
consecutiveRounds >= MAX_CONSECUTIVE_GOD_ROUNDS - 1 and
missedAttacks > 0; cede is always accepted in that state; and an
accepted stay sets hasPenalty, increments consecutiveRounds, resets
missedAttacks to 0 and keeps the same Adjudicator (no role changes). -/
theorem C5_god_choice_stay_limit (room : Room) (actorId : String) (pick : Nat)
    (hphase : room.phase = Phase.round_transition)
    (p : Player) (hfind : room.players.find? (fun q => q.id == actorId) = some p)
    (hrole : p.role = some Role.god)
    (gh : GodHistory) (hgh : room.godHistory = some gh) :
    (gh.consecutiveRounds ≥ MAX_CONSECUTIVE_GOD_ROUNDS - 1 ∧ gh.missedAttacks > 0 →
      god_choice room actorId "stay" pick =
        (room, some "Cannot stay as God for 3 consecutive rounds after missing")) ∧
    ((god_choice room actorId "cede" pick).2 = none ∧
      (god_choice room actorId "cede" pick).1.phase = Phase.setup ∧
      (god_choice room actorId "cede" pick).1.currentRound = room.currentRound + 1) ∧
    (¬ (gh.consecutiveRounds ≥ MAX_CONSECUTIVE_GOD_ROUNDS - 1 ∧ gh.missedAttacks > 0) →
      (god_choice room actorId "stay" pick).2 = none ∧
      (god_choice room actorId "stay" pick).1.godHistory = some { gh with
        hasPenalty := true,
        consecutiveRounds := gh.consecutiveRounds + 1,
        missedAttacks := 0 } ∧
      (god_choice room actorId "stay" pick).1.players.map (fun q => q.role) =
        room.players.map (fun q => q.role) ∧
      (god_choice room actorId "stay" pick).1.phase = Phase.setup) := by
  refine ⟨?_, ?_, ?_⟩
  · intro hcond
    simp [god_choice, hphase, hfind, hrole, hgh, hcond]
  · have hred : god_choice room actorId "cede" pick =
        (startNextRound room none pick, none) := by
      simp [god_choice, hphase, hfind, hrole]
    rw [hred]
    exact ⟨rfl, startNextRound_phase room none pick,
      startNextRound_currentRound room none pick⟩
  · intro hcond
    have hred : god_choice room actorId "stay" pick =
        (startNextRound { room with godHistory := some { gh with
          hasPenalty := true,
          consecutiveRounds := gh.consecutiveRounds + 1,
          missedAttacks := 0 } } (some p.id) pick, none) := by
      have hc := hcond
      simp only [MAX_CONSECUTIVE_GOD_ROUNDS] at hc
      simp [god_choice, hphase, hfind, hrole, hgh, MAX_CONSECUTIVE_GOD_ROUNDS]
      omega
    rw [hred]
    refine ⟨rfl, ?_, ?_, startNextRound_phase _ _ _⟩
    · rw [startNextRound_keep_godHistory]
    · rw [startNextRound_keep_map_role]

/-- A concrete session in round_transition after the Adjudicator won the
round with one missed attack at the consecutive-round threshold. -/
def transitionRoom : Room :=
  { code := "ROOMG7",
    players := [mkPlayer "p0" "Ada" (some Role.god) none true,
                mkPlayer "p1" "Bo" (some Role.mortal) none false,
                mkPlayer "p2" "Cy" (some Role.mortal) none false,
                mkPlayer "p3" "Di" (some Role.mortal) none false],
    phase := Phase.round_transition,
    turn := 2, currentRound := 1, totalRounds := 3, currentPlayerIndex := 1,
    claims := [], attacks := [],
    verificationsRemaining := 2,
    scores := [],
    godHistory := some
      { playerId := "p0", consecutiveRounds := 1, hasPenalty := false, missedAttacks := 1 },
    roundWinner := some Winner.god }

/-- Witness for C5: in the concrete threshold room, stay is rejected
with the validation error and cede is accepted. -/
theorem C5_god_choice_stay_limit_witness :
    god_choice transitionRoom "p0" "stay" 0 =
      (transitionRoom, some "Cannot stay as God for 3 consecutive rounds after missing") ∧
    (god_choice transitionRoom "p0" "cede" 0).2 = none := by
  have h := C5_god_choice_stay_limit transitionRoom "p0" 0 rfl
    (mkPlayer "p0" "Ada" (some Role.god) none true) (by decide) rfl
    { playerId := "p0", consecutiveRounds := 1, hasPenalty := false, missedAttacks := 1 } rfl
  exact ⟨h.1 (by decide), h.2.1.1⟩

/-- The head of bumpScores keeps its key. -/
theorem bumpScores_head_key (kv : String × PlayerScore) (pid : String) (e : ScoreEntry) :
    (if kv.1 == pid then (kv.1, addEntry kv.2 e) else kv).1 = kv.1 := by
  split <;> rfl

/-- Lookup in a bumped score table: the found binding is the original
one, bumped when its key is the bumped key. -/
theorem find_bumpScores (s : List (String × PlayerScore)) (pid q : String) (e : ScoreEntry) :
    (bumpScores s pid e).find? (fun kv => kv.1 == q) =
      (s.find? (fun kv => kv.1 == q)).map
        (fun kv => if kv.1 == pid then (kv.1, addEntry kv.2 e) else kv) := by
  induction s with
  | nil => rfl
  | cons kv rest ih =>
    have hkey := bumpScores_head_key kv pid e
    by_cases hq : kv.1 = q
    · rw [bumpScores, List.map_cons, List.find?_cons_of_pos, List.find?_cons_of_pos]
      · simp
      · simp [hq]
      · split <;> simp [hq]
    · rw [bumpScores, List.map_cons, List.find?_cons_of_neg, List.find?_cons_of_neg]
      · exact ih
      · simp [hq]
      · split <;> simp [hq]

/-- addScore leaves every field except the score table unchanged. -/
theorem addScore_players (r : Room) (pid a : String) (pts : Int) (rd t : Nat) :
    (addScore r pid a pts rd t).players = r.players := by
  unfold addScore; split <;> rfl

/-- addScore preserves the phase. -/
theorem addScore_phase (r : Room) (pid a : String) (pts : Int) (rd t : Nat) :
    (addScore r pid a pts rd t).phase = r.phase := by
  unfold addScore; split <;> rfl

/-- addScore preserves the turn counter. -/
theorem addScore_turn (r : Room) (pid a : String) (pts : Int) (rd t : Nat) :
    (addScore r pid a pts rd t).turn = r.turn := by
  unfold addScore; split <;> rfl

/-- addScore preserves the round counter. -/
theorem addScore_currentRound (r : Room) (pid a : String) (pts : Int) (rd t : Nat) :
    (addScore r pid a pts rd t).currentRound = r.currentRound := by
  unfold addScore; split <;> rfl

/-- addScore preserves godHistory. -/
theorem addScore_godHistory (r : Room) (pid a : String) (pts : Int) (rd t : Nat) :
    (addScore r pid a pts rd t).godHistory = r.godHistory := by
  unfold addScore; split <;> rfl

/-- addScore preserves the claim ledger. -/
theorem addScore_claims (r : Room) (pid a : String) (pts : Int) (rd t : Nat) :
    (addScore r pid a pts rd t).claims = r.claims := by
  unfold addScore; split <;> rfl

/-- addScore preserves the attack list. -/
theorem addScore_attacks (r : Room) (pid a : String) (pts : Int) (rd t : Nat) :
    (addScore r pid a pts rd t).attacks = r.attacks := by
  unfold addScore; split <;> rfl

/-- addScore preserves the verification budget. -/
theorem addScore_verificationsRemaining (r : Room) (pid a : String) (pts : Int) (rd t : Nat) :
    (addScore r pid a pts rd t).verificationsRemaining = r.verificationsRemaining := by
  unfold addScore; split <;> rfl

/-- addScore adds exactly the given points to the bumped player's total
when that player has a score record. -/
theorem scoreTotal_addScore_self (r : Room) (pid a : String) (pts : Int) (rd t : Nat)
    (h : hasScore r pid = true) :
    scoreTotal (addScore r pid a pts rd t) pid = scoreTotal r pid + pts := by
  unfold hasScore at h
  obtain ⟨kv, hkv⟩ := Option.isSome_iff_exists.mp h
  have hk : kv.1 = pid := by
    have := List.find?_some hkv
    simpa using this
  unfold addScore scoreTotal
  rw [if_neg (by simp [hkv])]
  rw [find_bumpScores]
  simp [hkv, hk, addEntry]

/-- addScore leaves every other player's total unchanged. -/
theorem scoreTotal_addScore_other (r : Room) (pid q a : String) (pts : Int) (rd t : Nat)
    (h : q ≠ pid) :
    scoreTotal (addScore r pid a pts rd t) q = scoreTotal r q := by
  unfold addScore scoreTotal
  split
  · rfl
  · rw [find_bumpScores]
    cases hfq : r.scores.find? (fun kv => kv.1 == q) with
    | none => simp
    | some kv =>
      have hk : kv.1 = q := by
        have := List.find?_some hfq
        simpa using this
      simp [hk, h]

/-- addScore preserves which players have a score record. -/
theorem hasScore_addScore (r : Room) (pid q a : String) (pts : Int) (rd t : Nat) :
    hasScore (addScore r pid a pts rd t) q = hasScore r q := by
  unfold addScore hasScore
  split
  · rfl
  · rw [find_bumpScores]
    cases r.scores.find? (fun kv => kv.1 == q) <;> simp

/-- surviveFold does not change the player list. -/
theorem surviveFold_players (ms : List Player) (r : Room) :
    (surviveFold ms r).players = r.players := by
  induction ms generalizing r with
  | nil => rfl
  | cons m rest ih =>
    simp only [surviveFold, List.foldl_cons]
    simp only [surviveFold] at ih
    rw [ih, addScore_players]

/-- surviveFold does not change the phase. -/
theorem surviveFold_phase (ms : List Player) (r : Room) :
    (surviveFold ms r).phase = r.phase := by
  induction ms generalizing r with
  | nil => rfl
  | cons m rest ih =>
    simp only [surviveFold, List.foldl_cons]
    simp only [surviveFold] at ih
    rw [ih, addScore_phase]

/-- surviveFold does not change the turn counter. -/
theorem surviveFold_turn (ms : List Player) (r : Room) :
    (surviveFold ms r).turn = r.turn := by
  induction ms generalizing r with
  | nil => rfl
  | cons m rest ih =>
    simp only [surviveFold, List.foldl_cons]
    simp only [surviveFold] at ih
    rw [ih, addScore_turn]

/-- surviveFold does not change the round counter. -/
theorem surviveFold_currentRound (ms : List Player) (r : Room) :
    (surviveFold ms r).currentRound = r.currentRound := by
  induction ms generalizing r with
  | nil => rfl
  | cons m rest ih =>
    simp only [surviveFold, List.foldl_cons]
    simp only [surviveFold] at ih
    rw [ih, addScore_currentRound]

/-- surviveFold does not change godHistory. -/
theorem surviveFold_godHistory (ms : List Player) (r : Room) :
    (surviveFold ms r).godHistory = r.godHistory := by
  induction ms generalizing r with
  | nil => rfl
  | cons m rest ih =>
    simp only [surviveFold, List.foldl_cons]
    simp only [surviveFold] at ih
    rw [ih, addScore_godHistory]

/-- surviveFold does not change the attack list. -/
theorem surviveFold_attacks (ms : List Player) (r : Room) :
    (surviveFold ms r).attacks = r.attacks := by
  induction ms generalizing r with
  | nil => rfl
  | cons m rest ih =>
    simp only [surviveFold, List.foldl_cons]
    simp only [surviveFold] at ih
    rw [ih, addScore_attacks]

/-- surviveFold does not change the verification budget. -/
theorem surviveFold_verificationsRemaining (ms : List Player) (r : Room) :
    (surviveFold ms r).verificationsRemaining = r.verificationsRemaining := by
  induction ms generalizing r with
  | nil => rfl
  | cons m rest ih =>
    simp only [surviveFold, List.foldl_cons]
    simp only [surviveFold] at ih
    rw [ih, addScore_verificationsRemaining]

/-- surviveFold leaves a player's total unchanged when that player is
not in the awarded list. -/
theorem surviveFold_scoreTotal_not_mem (ms : List Player) (r : Room) (q : String)
    (h : ∀ m ∈ ms, m.id ≠ q) :
    scoreTotal (surviveFold ms r) q = scoreTotal r q := by
  induction ms generalizing r with
  | nil => rfl
  | cons m rest ih =>
    simp only [surviveFold, List.foldl_cons]
    simp only [surviveFold] at ih
    rw [ih _ (fun x hx => h x (List.mem_cons_of_mem m hx))]
    exact scoreTotal_addScore_other _ _ _ _ _ _ _
      (fun hc => h m (List.mem_cons_self m rest) hc.symm)

/-- surviveFold preserves which players have a score record. -/
theorem surviveFold_hasScore (ms : List Player) (r : Room) (q : String) :
    hasScore (surviveFold ms r) q = hasScore r q := by
  induction ms generalizing r with
  | nil => rfl
  | cons m rest ih =>
    simp only [surviveFold, List.foldl_cons]
    simp only [surviveFold] at ih
    rw [ih, hasScore_addScore]

/-- Unfolding step of surviveFold. -/
theorem surviveFold_cons (m : Player) (rest : List Player) (r : Room) :
    surviveFold (m :: rest) r =
      surviveFold rest
        (addScore r m.id "survive_turn" POINTS.MORTAL_SURVIVES_TURN r.currentRound r.turn) := by
  simp only [surviveFold, List.foldl_cons]

/-- surviveFold awards the survive-turn bonus exactly once to each
player in a duplicate-free awarded list who has a score record. -/
theorem surviveFold_scoreTotal_mem (ms : List Player) (r : Room) (q : String)
    (hnodup : (ms.map (fun m => m.id)).Nodup)
    (hmem : q ∈ ms.map (fun m => m.id))
    (hhas : hasScore r q = true) :
    scoreTotal (surviveFold ms r) q = scoreTotal r q + POINTS.MORTAL_SURVIVES_TURN := by
  induction ms generalizing r with
  | nil => simp at hmem
  | cons m rest ih =>
    rw [surviveFold_cons]
    rw [List.map_cons, List.nodup_cons] at hnodup
    rw [List.map_cons] at hmem
    rcases List.mem_cons.mp hmem with hq | hq
    · rw [surviveFold_scoreTotal_not_mem rest _ q
        (fun x hx hc => hnodup.1 ((hc.trans hq) ▸ List.mem_map_of_mem (fun m => m.id) hx))]
      rw [hq] at hhas ⊢
      exact scoreTotal_addScore_self r m.id "survive_turn" POINTS.MORTAL_SURVIVES_TURN
        r.currentRound r.turn hhas
    · rw [ih _ hnodup.2 hq (by rw [hasScore_addScore]; exact hhas)]
      have hqm : q ≠ m.id := fun hc => hnodup.1 (hc ▸ hq)
      rw [scoreTotal_addScore_other _ _ _ _ _ _ _ hqm]

/-- attackRecord only appends the attack record. -/
theorem attackRecord_players (r : Room) (c : Nat) : (attackRecord r c).players = r.players := rfl

/-- attackRecord preserves the score table. -/
theorem attackRecord_scores (r : Room) (c : Nat) : (attackRecord r c).scores = r.scores := rfl

/-- attackRecord preserves godHistory. -/
theorem attackRecord_godHistory (r : Room) (c : Nat) :
    (attackRecord r c).godHistory = r.godHistory := rfl

/-- attackRecord preserves the turn counter. -/
theorem attackRecord_turn (r : Room) (c : Nat) : (attackRecord r c).turn = r.turn := rfl

/-- attackRecord preserves the round counter. -/
theorem attackRecord_currentRound (r : Room) (c : Nat) :
    (attackRecord r c).currentRound = r.currentRound := rfl

/-- attackRecord preserves the verification budget. -/
theorem attackRecord_verificationsRemaining (r : Room) (c : Nat) :
    (attackRecord r c).verificationsRemaining = r.verificationsRemaining := rfl

/-- attackRecord appends exactly the attack record of the cell, with the
hit flag set iff some player occupies the cell. -/
theorem attackRecord_attacks (r : Room) (c : Nat) :
    (attackRecord r c).attacks = r.attacks ++
      [{ cell := c, turn := r.turn, round := r.currentRound,
         hit := (r.players.find? (fun p => p.position == some c)).isSome,
         victimName := (r.players.find? (fun p => p.position == some c)).map
           (fun p => p.name) }] := rfl

/-- Marking the hit player dead preserves ids and roles positionally. -/
theorem killFirstAt_map_idrole (l : List Player) (c : Nat) :
    (killFirstAt l c).map (fun p => (p.id, p.role)) = l.map (fun p => (p.id, p.role)) := by
  induction l with
  | nil => rfl
  | cons p rest ih =>
    simp only [killFirstAt]
    split <;> simp [ih]

/-- When nobody occupies the cell, killFirstAt changes nothing. -/
theorem killFirstAt_of_find_none (l : List Player) (c : Nat)
    (h : l.find? (fun p => p.position == some c) = none) :
    killFirstAt l c = l := by
  induction l with
  | nil => rfl
  | cons p rest ih =>
    by_cases hp : (p.position == some c) = true
    · simp only [List.find?, hp] at h
      exact absurd h (by simp)
    · have hp2 : (p.position == some c) = false := by simpa using hp
      simp only [List.find?, hp2] at h
      simp only [killFirstAt, hp2]
      rw [if_neg (by simp [hp2]), ih h]

/-- Killing the occupant of a cell removes exactly one living Suspect
when that occupant is a mortal. -/
theorem countLiving_killFirstAt (l : List Player) (c : Nat) (q : Player)
    (hfind : l.find? (fun p => p.position == some c) = some q)
    (hrole : q.role = some Role.mortal) :
    countLiving (killFirstAt l c) + 1 = countLiving l := by
  induction l with
  | nil => simp at hfind
  | cons p rest ih =>
    by_cases hp : (p.position == some c) = true
    · simp only [List.find?, hp] at hfind
      have hpq : p = q := by simpa using hfind
      subst hpq
      have hpos : p.position = some c := by simpa using hp
      simp only [killFirstAt, hp, if_true, countLiving, List.filter_cons]
      rw [if_neg (by simp), if_pos (by simp [hrole, hpos])]
      simp
    · have hp2 : (p.position == some c) = false := by simpa using hp
      simp only [List.find?, hp2] at hfind
      simp only [killFirstAt]
      rw [if_neg (by simp [hp2])]
      simp only [countLiving, List.filter_cons] at ih ⊢
      split
      · simpa using ih hfind
      · exact ih hfind

/-- handleEndOfRound only changes phase and roundWinner. -/
theorem handleEndOfRound_players (r : Room) (w : Winner) :
    (handleEndOfRound r w).players = r.players := by
  unfold handleEndOfRound; split <;> rfl

/-- handleEndOfRound preserves the score table. -/
theorem handleEndOfRound_scores (r : Room) (w : Winner) :
    (handleEndOfRound r w).scores = r.scores := by
  unfold handleEndOfRound; split <;> rfl

/-- handleEndOfRound preserves godHistory. -/
theorem handleEndOfRound_godHistory (r : Room) (w : Winner) :
    (handleEndOfRound r w).godHistory = r.godHistory := by
  unfold handleEndOfRound; split <;> rfl

/-- handleEndOfRound preserves the attack list. -/
theorem handleEndOfRound_attacks (r : Room) (w : Winner) :
    (handleEndOfRound r w).attacks = r.attacks := by
  unfold handleEndOfRound; split <;> rfl

/-- attackAdvance does not change the player list. -/
theorem attackAdvance_players (r : Room) : (attackAdvance r).players = r.players := by
  simp only [attackAdvance]
  split
  · rw [handleEndOfRound_players]
  · split
    · rw [handleEndOfRound_players]
    · rfl

/-- attackAdvance preserves the score table. -/
theorem attackAdvance_scores (r : Room) : (attackAdvance r).scores = r.scores := by
  simp only [attackAdvance]
  split
  · rw [handleEndOfRound_scores]
  · split
    · rw [handleEndOfRound_scores]
    · rfl

/-- attackAdvance preserves godHistory. -/
theorem attackAdvance_godHistory (r : Room) : (attackAdvance r).godHistory = r.godHistory := by
  simp only [attackAdvance]
  split
  · rw [handleEndOfRound_godHistory]
  · split
    · rw [handleEndOfRound_godHistory]
    · rfl

/-- attackAdvance preserves the attack list. -/
theorem attackAdvance_attacks (r : Room) : (attackAdvance r).attacks = r.attacks := by
  simp only [attackAdvance]
  split
  · rw [handleEndOfRound_attacks]
  · split
    · rw [handleEndOfRound_attacks]
    · rfl

/-- Rooms with equal score tables assign equal totals. -/
theorem scoreTotal_eq_of_scores_eq (r1 r2 : Room) (h : r1.scores = r2.scores) (q : String) :
    scoreTotal r1 q = scoreTotal r2 q := by
  unfold scoreTotal; rw [h]

/-- Rooms with equal score tables have the same recorded players. -/
theorem hasScore_eq_of_scores_eq (r1 r2 : Room) (h : r1.scores = r2.scores) (q : String) :
    hasScore r1 q = hasScore r2 q := by
  unfold hasScore; rw [h]

/-- attackStrike kills the occupant of the cell when the attack hits and
leaves the player list unchanged otherwise. -/
theorem attackStrike_players (r : Room) (c : Nat) :
    (attackStrike r c).players =
      if (r.players.find? (fun p => p.position == some c)).isSome then killFirstAt r.players c
      else r.players := by
  simp only [attackStrike]
  cases hfp : r.players.find? (fun p => p.position == some c) with
  | none =>
    simp only [Option.isSome_none, Bool.false_eq_true, if_false]
    split <;> simp [addScore_players]
  | some p =>
    simp only [Option.isSome_some, if_true]
    simp [addScore_players]

/-- attackStrike preserves the turn counter. -/
theorem attackStrike_turn (r : Room) (c : Nat) : (attackStrike r c).turn = r.turn := by
  simp only [attackStrike]
  split
  · simp [addScore_turn]
  · split <;> simp [addScore_turn]

/-- attackStrike preserves the round counter. -/
theorem attackStrike_currentRound (r : Room) (c : Nat) :
    (attackStrike r c).currentRound = r.currentRound := by
  simp only [attackStrike]
  split
  · simp [addScore_currentRound]
  · split <;> simp [addScore_currentRound]

/-- attackStrike preserves the verification budget. -/
theorem attackStrike_verificationsRemaining (r : Room) (c : Nat) :
    (attackStrike r c).verificationsRemaining = r.verificationsRemaining := by
  simp only [attackStrike]
  split
  · simp [addScore_verificationsRemaining]
  · split <;> simp [addScore_verificationsRemaining]

/-- attackStrike preserves the attack list. -/
theorem attackStrike_attacks (r : Room) (c : Nat) : (attackStrike r c).attacks = r.attacks := by
  simp only [attackStrike]
  split
  · simp [addScore_attacks]
  · split <;> simp [addScore_attacks]

/-- attackStrike preserves the phase. -/
theorem attackStrike_phase (r : Room) (c : Nat) : (attackStrike r c).phase = r.phase := by
  simp only [attackStrike]
  split
  · simp [addScore_phase]
  · split <;> simp [addScore_phase]

/-- attackStrike increments missedAttacks exactly on a miss. -/
theorem attackStrike_godHistory (r : Room) (c : Nat) :
    (attackStrike r c).godHistory =
      if (r.players.find? (fun p => p.position == some c)).isSome then r.godHistory
      else r.godHistory.map (fun gh => { gh with missedAttacks := gh.missedAttacks + 1 }) := by
  simp only [attackStrike]
  split
  next p heq =>
    rw [heq]
    simp [addScore_godHistory]
  next heq =>
    rw [heq]
    simp only [Option.isSome_none, Bool.false_eq_true, if_false]
    split <;> simp [addScore_godHistory]

/-- attackStrike preserves which players have a score record. -/
theorem attackStrike_hasScore (r : Room) (c : Nat) (q : String) :
    hasScore (attackStrike r c) q = hasScore r q := by
  simp only [attackStrike]
  split
  · rw [hasScore_addScore]
    exact hasScore_eq_of_scores_eq _ _ rfl q
  · split
    · rw [hasScore_addScore]
      exact hasScore_eq_of_scores_eq _ _ rfl q
    · exact hasScore_eq_of_scores_eq _ _ rfl q

/-- attackStrike scores the Adjudicator exactly as the source does: the
find bonus plus the penalty-hit bonus on a penalized hit, the penalty
loss on a penalized miss, and nothing on an unpenalized miss. -/
theorem attackStrike_scoreTotal_god (r : Room) (c : Nat) (g : Player)
    (hg : r.players.find? (fun p => p.role == some Role.god) = some g)
    (hhas : hasScore r g.id = true) :
    scoreTotal (attackStrike r c) g.id =
      scoreTotal r g.id +
        (if (r.players.find? (fun p => p.position == some c)).isSome then
          POINTS.GOD_FINDS_MORTAL +
            (if (r.godHistory.map (fun gh => gh.hasPenalty)).getD false then
              POINTS.GOD_PENALTY_HIT_BONUS else 0)
        else if (r.godHistory.map (fun gh => gh.hasPenalty)).getD false then
          POINTS.GOD_PENALTY_MISS else 0) := by
  simp only [attackStrike, hg, Option.map_some', Option.getD_some]
  split
  next p heq =>
    rw [heq]
    simp only [Option.isSome_some, if_true]
    rw [scoreTotal_addScore_self]
    · simp [scoreTotal]
    · exact (hasScore_eq_of_scores_eq _ r rfl g.id).trans hhas
  next heq =>
    rw [heq]
    simp only [Option.isSome_none, Bool.false_eq_true, if_false]
    split
    · rw [scoreTotal_addScore_self]
      · simp [scoreTotal]
      · exact (hasScore_eq_of_scores_eq _ r rfl g.id).trans hhas
    · simp [scoreTotal]

/-- attackStrike leaves every other player's total unchanged. -/
theorem attackStrike_scoreTotal_other (r : Room) (c : Nat) (g : Player) (q : String)
    (hg : r.players.find? (fun p => p.role == some Role.god) = some g)
    (hqg : q ≠ g.id) :
    scoreTotal (attackStrike r c) q = scoreTotal r q := by
  simp only [attackStrike, hg, Option.map_some', Option.getD_some]
  split
  · rw [scoreTotal_addScore_other _ _ _ _ _ _ _ hqg]
    exact scoreTotal_eq_of_scores_eq _ _ rfl q
  · split
    · rw [scoreTotal_addScore_other _ _ _ _ _ _ _ hqg]
      exact scoreTotal_eq_of_scores_eq _ _ rfl q
    · exact scoreTotal_eq_of_scores_eq _ _ rfl q

/-- attackSurvival does not change the player list. -/
theorem attackSurvival_players (r : Room) : (attackSurvival r).players = r.players := by
  unfold attackSurvival; exact surviveFold_players _ _

/-- attackSurvival preserves the turn counter. -/
theorem attackSurvival_turn (r : Room) : (attackSurvival r).turn = r.turn := by
  unfold attackSurvival; exact surviveFold_turn _ _

/-- attackSurvival preserves the round counter. -/
theorem attackSurvival_currentRound (r : Room) : (attackSurvival r).currentRound = r.currentRound := by
  unfold attackSurvival; exact surviveFold_currentRound _ _

/-- attackSurvival preserves the verification budget. -/
theorem attackSurvival_verificationsRemaining (r : Room) :
    (attackSurvival r).verificationsRemaining = r.verificationsRemaining := by
  unfold attackSurvival; exact surviveFold_verificationsRemaining _ _

/-- attackSurvival preserves godHistory. -/
theorem attackSurvival_godHistory (r : Room) : (attackSurvival r).godHistory = r.godHistory := by
  unfold attackSurvival; exact surviveFold_godHistory _ _

/-- attackSurvival preserves the attack list. -/
theorem attackSurvival_attacks (r : Room) : (attackSurvival r).attacks = r.attacks := by
  unfold attackSurvival; exact surviveFold_attacks _ _

/-- C9: for every attack_cell command processed in the deduction phase
(acting player present with the Adjudicator role, and the occupant of
the attacked cell, if any, a Suspect, as in every reachable game state),
the number of living Suspects after the attack is the number before
minus one exactly when the appended attack record is a hit. -/
theorem C9_attack_liveness (room : Room) (actorId : String) (cell : Nat)
    (hphase : room.phase = Phase.deduction)
    (p : Player) (hfind : room.players.find? (fun q => q.id == actorId) = some p)
    (hrole : p.role = some Role.god)
    (hmortal : ∀ q, room.players.find? (fun x => x.position == some cell) = some q →
      q.role = some Role.mortal) :
    countLiving (attack_cell room actorId cell).1.players +
      (if (room.players.find? (fun x => x.position == some cell)).isSome then 1 else 0) =
      countLiving room.players ∧
    (attack_cell room actorId cell).1.attacks = room.attacks ++
      [{ cell := cell, turn := room.turn, round := room.currentRound,
         hit := (room.players.find? (fun x => x.position == some cell)).isSome,
         victimName := (room.players.find? (fun x => x.position == some cell)).map
           (fun x => x.name) }] := by
  have hred : (attack_cell room actorId cell).1 =
      attackAdvance (attackSurvival (attackStrike (attackRecord room cell) cell)) := by
    simp [attack_cell, hphase, hfind, hrole]
  rw [hred]
  constructor
  · rw [attackAdvance_players, attackSurvival_players, attackStrike_players,
      attackRecord_players]
    cases hfp : room.players.find? (fun x => x.position == some cell) with
    | some q =>
      simp only [Option.isSome_some, if_true]
      exact countLiving_killFirstAt room.players cell q hfp (hmortal q hfp)
    | none =>
      simp
  · rw [attackAdvance_attacks, attackSurvival_attacks, attackStrike_attacks,
      attackRecord_attacks]

/-- C6: verify_claim requires a positive verification budget and every
successful verification decrements it by exactly 1 on all three paths
regardless of the truth outcome; an attack that ends neither the round
nor the game increments the turn, returns the phase to claiming and
adds exactly the per-turn increment of 2 to the budget (the budget
accumulates within a round); the budget is reset to the per-round base
of 2 exactly by the start of a new round, which also clears the claim
and attack ledgers and resets the turn. -/
theorem C6_verification_budget (room : Room) (actorId : String) :
    (∀ cid path (p : Player),
      room.phase = Phase.deduction →
      room.players.find? (fun q => q.id == actorId) = some p →
      p.role = some Role.god →
      room.verificationsRemaining = 0 →
      verify_claim room actorId cid path =
        (room, some "No verifications remaining this turn")) ∧
    (∀ cid path (p : Player) (c : GameClaim),
      room.phase = Phase.deduction →
      room.players.find? (fun q => q.id == actorId) = some p →
      p.role = some Role.god →
      room.verificationsRemaining > 0 →
      room.claims.find? (fun x => x.id == cid) = some c →
      c.verified = false →
      (verify_claim room actorId cid path).2 = none ∧
      (verify_claim room actorId cid path).1.verificationsRemaining =
        room.verificationsRemaining - 1) ∧
    (∀ cell (p : Player),
      room.phase = Phase.deduction →
      room.players.find? (fun q => q.id == actorId) = some p →
      p.role = some Role.god →
      countLiving (attack_cell room actorId cell).1.players ≠ 0 →
      room.turn < TURNS_PER_ROUND →
      (attack_cell room actorId cell).1.turn = room.turn + 1 ∧
      (attack_cell room actorId cell).1.phase = Phase.claiming ∧
      (attack_cell room actorId cell).1.verificationsRemaining =
        room.verificationsRemaining + 2) ∧
    (∀ kg pick,
      (startNextRound room kg pick).verificationsRemaining = 2 ∧
      (startNextRound room kg pick).claims = [] ∧
      (startNextRound room kg pick).attacks = [] ∧
      (startNextRound room kg pick).turn = 1) := by
  refine ⟨?_, ?_, ?_, ?_⟩
  · intro cid path p hphase hfind hrole hv0
    simp [verify_claim, hphase, hfind, hrole, hv0]
  · intro cid path p c hphase hfind hrole hvpos hcfind hcunv
    have hvne : ¬ room.verificationsRemaining ≤ 0 := by omega
    simp only [verify_claim, hphase, hfind, hrole, hcfind, hcunv, ne_eq,
      not_true_eq_false, if_false, Bool.false_eq_true, reduceIte, if_neg hvne]
    constructor
    · trivial
    · split <;> simp [addScore_verificationsRemaining]
  · intro cell p hphase hfind hrole halive hturn
    have hred : (attack_cell room actorId cell).1 =
        attackAdvance (attackSurvival (attackStrike (attackRecord room cell) cell)) := by
      simp [attack_cell, hphase, hfind, hrole]
    rw [hred] at halive ⊢
    rw [attackAdvance_players] at halive
    have hAturn : (attackSurvival (attackStrike (attackRecord room cell) cell)).turn =
        room.turn := by
      rw [attackSurvival_turn, attackStrike_turn, attackRecord_turn]
    have hAvr : (attackSurvival
        (attackStrike (attackRecord room cell) cell)).verificationsRemaining =
        room.verificationsRemaining := by
      rw [attackSurvival_verificationsRemaining, attackStrike_verificationsRemaining,
        attackRecord_verificationsRemaining]
    simp only [attackAdvance]
    rw [if_neg (by simpa [countLiving] using halive)]
    rw [if_neg (by rw [hAturn]; omega)]
    exact ⟨by rw [hAturn], rfl, by rw [hAvr]⟩
  · intro kg pick
    exact ⟨startNextRound_verificationsRemaining room kg pick,
      startNextRound_claims room kg pick,
      startNextRound_attacks room kg pick,
      startNextRound_turn room kg pick⟩

/-- An unverified claim pending verification in the deduction room. -/
def pendingClaim : GameClaim :=
  { id := "ROOMH8-1-p1", playerId := "p1", playerName := "Bo",
    targetPlayerId := "p2", targetPlayerName := "Cy",
    claimType := ClaimType.row, claimValue := 2,
    verified := false, isTrue := none, turn := 1,
    isSelfClaim := false, zkProof := none, verifiedOnChain := false }

/-- A concrete session in the deduction phase with one pending claim. -/
def deductionRoom : Room :=
  { code := "ROOMH8",
    players := [mkPlayer "p0" "Ada" (some Role.god) none true,
                mkPlayer "p1" "Bo" (some Role.mortal) (some 1) false,
                mkPlayer "p2" "Cy" (some Role.mortal) (some 5) false,
                mkPlayer "p3" "Di" (some Role.mortal) (some 9) false],
    phase := Phase.deduction,
    turn := 1, currentRound := 1, totalRounds := 3, currentPlayerIndex := 1,
    claims := [pendingClaim], attacks := [],
    verificationsRemaining := 2,
    scores := [("p0", { playerId := "p0", playerName := "Ada", total := 0, breakdown := [] }),
               ("p1", { playerId := "p1", playerName := "Bo", total := 0, breakdown := [] }),
               ("p2", { playerId := "p2", playerName := "Cy", total := 0, breakdown := [] }),
               ("p3", { playerId := "p3", playerName := "Di", total := 0, breakdown := [] })],
    godHistory := some
      { playerId := "p0", consecutiveRounds := 1, hasPenalty := false, missedAttacks := 0 },
    roundWinner := none }

/-- Witness for C6: verifying the pending claim through the local path
in the concrete deduction room emits no error and decrements the budget
by exactly one. -/
theorem C6_verification_budget_witness :
    (verify_claim deductionRoom "p0" "ROOMH8-1-p1" VPath.localCheck).2 = none ∧
    (verify_claim deductionRoom "p0" "ROOMH8-1-p1" VPath.localCheck).1.verificationsRemaining =
      deductionRoom.verificationsRemaining - 1 :=
  (C6_verification_budget deductionRoom "p0").2.1 "ROOMH8-1-p1" VPath.localCheck
    (mkPlayer "p0" "Ada" (some Role.god) none true) pendingClaim rfl (by decide) rfl
    (by decide) (by decide) rfl

/-- killFirstAt preserves the id sequence. -/
theorem killFirstAt_map_id (l : List Player) (c : Nat) :
    (killFirstAt l c).map (fun p => p.id) = l.map (fun p => p.id) := by
  induction l with
  | nil => rfl
  | cons p rest ih =>
    simp only [killFirstAt]
    split <;> simp [ih]

/-- A member of a list with the same positional ids and roles has a
counterpart with its id and role in the original list. -/
theorem exists_same_id_role (players l2 : List Player) (m : Player)
    (hmap : l2.map (fun p => (p.id, p.role)) = players.map (fun p => (p.id, p.role)))
    (hm : m ∈ l2) :
    ∃ q ∈ players, q.id = m.id ∧ q.role = m.role := by
  have hmm : (m.id, m.role) ∈ players.map (fun p => (p.id, p.role)) := by
    rw [← hmap]
    exact List.mem_map_of_mem _ hm
  obtain ⟨q, hqmem, hq⟩ := List.mem_map.mp hmm
  exact ⟨q, hqmem, congrArg Prod.fst hq, congrArg Prod.snd hq⟩

/-- With duplicate-free player ids, a mortal appearing after an attack
cannot carry the Adjudicator's id. -/
theorem mortal_id_ne_god_id (players l2 : List Player) (g m : Player)
    (hmap : l2.map (fun p => (p.id, p.role)) = players.map (fun p => (p.id, p.role)))
    (hnodup : (players.map (fun q => q.id)).Nodup)
    (hgmem : g ∈ players) (hgrole : g.role = some Role.god)
    (hm : m ∈ l2) (hmrole : m.role = some Role.mortal) :
    m.id ≠ g.id := by
  intro hc
  obtain ⟨q, hqmem, hqid, hqrole⟩ := exists_same_id_role players l2 m hmap hm
  have hqg : q = g := List.inj_on_of_nodup_map hnodup hqmem hgmem (by rw [hqid, hc])
  rw [hqg, hgrole] at hqrole
  rw [hmrole] at hqrole
  simp at hqrole

/-- C4: attack_cell scores exactly as specified.  On a hit the
Adjudicator gains the found-mortal bonus of 40 plus the penalty-hit
bonus of 15 exactly when godHistory.hasPenalty is set; on a miss
missedAttacks increments and the Adjudicator loses 20 points exactly
when penalized (an unpenalized miss changes no score); and in both
cases every Suspect still alive after the attack gains the survive-turn
bonus of 20.  Hypotheses: deduction phase, Adjudicator actor, a started
game (godHistory present, a first Adjudicator in the list, one score
record per player, duplicate-free connection ids). -/
theorem C4_attack_scoring (room : Room) (actorId : String) (cell : Nat)
    (hphase : room.phase = Phase.deduction)
    (p : Player) (hfind : room.players.find? (fun q => q.id == actorId) = some p)
    (hrole : p.role = some Role.god)
    (g : Player) (hg : room.players.find? (fun q => q.role == some Role.god) = some g)
    (gh : GodHistory) (hgh : room.godHistory = some gh)
    (hnodup : (room.players.map (fun q => q.id)).Nodup)
    (hscores : ∀ q ∈ room.players, hasScore room q.id = true) :
    ((room.players.find? (fun x => x.position == some cell)).isSome = true →
      scoreTotal (attack_cell room actorId cell).1 g.id =
        scoreTotal room g.id + (POINTS.GOD_FINDS_MORTAL +
          (if gh.hasPenalty then POINTS.GOD_PENALTY_HIT_BONUS else 0)) ∧
      (attack_cell room actorId cell).1.godHistory = some gh) ∧
    ((room.players.find? (fun x => x.position == some cell)).isSome = false →
      scoreTotal (attack_cell room actorId cell).1 g.id =
        scoreTotal room g.id + (if gh.hasPenalty then POINTS.GOD_PENALTY_MISS else 0) ∧
      (attack_cell room actorId cell).1.godHistory =
        some { gh with missedAttacks := gh.missedAttacks + 1 }) ∧
    (∀ m ∈ (attack_cell room actorId cell).1.players,
      m.role = some Role.mortal → m.position ≠ none →
      scoreTotal (attack_cell room actorId cell).1 m.id =
        scoreTotal room m.id + POINTS.MORTAL_SURVIVES_TURN) := by
  have hred : (attack_cell room actorId cell).1 =
      attackAdvance (attackSurvival (attackStrike (attackRecord room cell) cell)) := by
    simp [attack_cell, hphase, hfind, hrole]
  have hgmem : g ∈ room.players := List.mem_of_find?_eq_some hg
  have hgrole2 : g.role = some Role.god := by simpa using List.find?_some hg
  have hg2 : (attackRecord room cell).players.find? (fun q => q.role == some Role.god) =
      some g := hg
  have hhas2 : hasScore (attackRecord room cell) g.id = true := hscores g hgmem
  have hmapSP : (attackStrike (attackRecord room cell) cell).players.map
      (fun q => (q.id, q.role)) = room.players.map (fun q => (q.id, q.role)) := by
    rw [attackStrike_players, attackRecord_players]
    split
    · exact killFirstAt_map_idrole room.players cell
    · rfl
  have hnotgod : ∀ x ∈ (attackStrike (attackRecord room cell) cell).players.filter
      (fun q => q.role == some Role.mortal && q.position != none), x.id ≠ g.id := by
    intro x hx
    have hx2 := List.mem_of_mem_filter hx
    have hxp := List.of_mem_filter hx
    have hxrole : x.role = some Role.mortal := by
      simp only [Bool.and_eq_true, beq_iff_eq] at hxp
      exact hxp.1
    exact mortal_id_ne_god_id room.players _ g x hmapSP hnodup hgmem hgrole2 hx2 hxrole
  have hVgod : scoreTotal (attackSurvival (attackStrike (attackRecord room cell) cell)) g.id =
      scoreTotal (attackStrike (attackRecord room cell) cell) g.id := by
    unfold attackSurvival
    exact surviveFold_scoreTotal_not_mem _ _ _ hnotgod
  have hAdv : ∀ q, scoreTotal (attackAdvance
      (attackSurvival (attackStrike (attackRecord room cell) cell))) q =
      scoreTotal (attackSurvival (attackStrike (attackRecord room cell) cell)) q :=
    fun q => scoreTotal_eq_of_scores_eq _ _ (attackAdvance_scores _) q
  have h1 := attackStrike_scoreTotal_god (attackRecord room cell) cell g hg2 hhas2
  rw [attackRecord_players, attackRecord_godHistory,
    show scoreTotal (attackRecord room cell) g.id = scoreTotal room g.id from
      scoreTotal_eq_of_scores_eq _ _ rfl _, hgh] at h1
  simp only [Option.map_some', Option.getD_some] at h1
  have hGH : (attack_cell room actorId cell).1.godHistory =
      if (room.players.find? (fun x => x.position == some cell)).isSome then some gh
      else some { gh with missedAttacks := gh.missedAttacks + 1 } := by
    rw [hred, attackAdvance_godHistory, attackSurvival_godHistory, attackStrike_godHistory,
      attackRecord_godHistory, attackRecord_players, hgh]
    split <;> rfl
  refine ⟨?_, ?_, ?_⟩
  · intro hhit
    rw [hhit] at h1
    simp only [if_true] at h1
    constructor
    · rw [hred, hAdv g.id, hVgod, h1]
    · rw [hGH, hhit]
      simp
  · intro hmiss
    rw [hmiss] at h1
    simp only [Bool.false_eq_true, if_false] at h1
    constructor
    · rw [hred, hAdv g.id, hVgod, h1]
    · rw [hGH, hmiss]
      simp
  · intro m hm hmrole hmpos
    rw [hred, attackAdvance_players, attackSurvival_players] at hm
    have hmf : m ∈ (attackStrike (attackRecord room cell) cell).players.filter
        (fun q => q.role == some Role.mortal && q.position != none) := by
      refine List.mem_filter.mpr ⟨hm, ?_⟩
      simp [hmrole, hmpos]
    obtain ⟨q, hqmem, hqid, hqrole⟩ :=
      exists_same_id_role room.players _ m hmapSP hm
    have hhasm : hasScore (attackStrike (attackRecord room cell) cell) m.id = true := by
      rw [attackStrike_hasScore, ← hqid]
      exact hscores q hqmem
    have hSid : (attackStrike (attackRecord room cell) cell).players.map (fun x => x.id) =
        room.players.map (fun x => x.id) := by
      rw [attackStrike_players, attackRecord_players]
      split
      · exact killFirstAt_map_id room.players cell
      · rfl
    have hmsnodup : (((attackStrike (attackRecord room cell) cell).players.filter
        (fun q => q.role == some Role.mortal && q.position != none)).map
        (fun x => x.id)).Nodup := by
      refine List.Nodup.sublist ?_ (hSid ▸ hnodup)
      exact (List.filter_sublist _).map _
    have hmneq : m.id ≠ g.id :=
      mortal_id_ne_god_id room.players _ g m hmapSP hnodup hgmem hgrole2 hm hmrole
    rw [hred, hAdv m.id]
    unfold attackSurvival
    rw [surviveFold_scoreTotal_mem _ _ _ hmsnodup (List.mem_map_of_mem _ hmf) hhasm]
    rw [attackStrike_scoreTotal_other (attackRecord room cell) cell g m.id hg2 hmneq]
    rw [show scoreTotal (attackRecord room cell) m.id = scoreTotal room m.id from
      scoreTotal_eq_of_scores_eq _ _ rfl _]

/-- Witness for C4: in the concrete deduction room, attacking occupied
cell 5 kills the Suspect there, awards the Adjudicator the plain
found-mortal bonus (no penalty) and keeps godHistory unchanged. -/
theorem C4_attack_scoring_witness :
    scoreTotal (attack_cell deductionRoom "p0" 5).1 "p0" =
      scoreTotal deductionRoom "p0" + (POINTS.GOD_FINDS_MORTAL +
        (if (false : Bool) then POINTS.GOD_PENALTY_HIT_BONUS else 0)) ∧
    (attack_cell deductionRoom "p0" 5).1.godHistory = some
      { playerId := "p0", consecutiveRounds := 1, hasPenalty := false, missedAttacks := 0 } :=
  (C4_attack_scoring deductionRoom "p0" 5 rfl
    (mkPlayer "p0" "Ada" (some Role.god) none true) (by decide) rfl
    (mkPlayer "p0" "Ada" (some Role.god) none true) (by decide)
    { playerId := "p0", consecutiveRounds := 1, hasPenalty := false, missedAttacks := 0 } rfl
    (by decide) (by decide)).1 (by decide)

/-- Witness for C9: attacking occupied cell 5 in the concrete deduction
room records a hit and reduces the living Suspects from three to two. -/
theorem C9_attack_liveness_witness :
    countLiving (attack_cell deductionRoom "p0" 5).1.players +
      (if (deductionRoom.players.find? (fun x => x.position == some 5)).isSome
        then 1 else 0) = countLiving deductionRoom.players ∧
    (attack_cell deductionRoom "p0" 5).1.attacks = deductionRoom.attacks ++
      [{ cell := 5, turn := deductionRoom.turn, round := deductionRoom.currentRound,
         hit := (deductionRoom.players.find? (fun x => x.position == some 5)).isSome,
         victimName := (deductionRoom.players.find? (fun x => x.position == some 5)).map
           (fun x => x.name) }] := by
  refine C9_attack_liveness deductionRoom "p0" 5 rfl
    (mkPlayer "p0" "Ada" (some Role.god) none true) (by decide) rfl ?_
  intro q hq
  rw [show deductionRoom.players.find? (fun x => x.position == some 5) =
      some (mkPlayer "p2" "Cy" (some Role.mortal) (some 5) false) from by decide] at hq
  injection hq with h
  rw [← h]
  rfl

end DivineWrath
